import Mathlib

/-
Verification of the generic, type-driven persistence layer of the hibou
repository (src/external/gtfsdb.rs and the entity modules it serves).

The embedding models:
- SQL values and rows as stored by SQLite (`Value`, `StoredTable`, `Db`);
- `rusqlite`'s named-parameter statement execution for the insert statement
  built by `insert` in gtfsdb.rs (`execute_named`);
- the generic batch `insert` (one transaction, one `execute_named` per
  record, commit at the end, rollback on error when the transaction is
  dropped, panic when `to_params_named(..).unwrap()` fails);
- `select_all` (SELECT * + per-row deserialization, first error aborts);
- `drop` (DROP TABLE IF EXISTS) and the per-entity `create`
  (CREATE TABLE IF NOT EXISTS ...), plus `drop_all` / `create_all`;
- `GtfsDb::new` (path-to-string `unwrap`, then `Connection::open`);
- the concrete `Agency` and `Trip` record types with their serde
  serialization order and `Table` implementations.
-/

set_option maxRecDepth 8000

namespace Hibou

/-- A SQLite storage value, as relevant to this repository: NULL, INTEGER
(the serde_repr enums) and TEXT (everything else). -/
inductive Value where
  | null
  | int (n : Int)
  | text (s : String)
deriving DecidableEq

/-- A named row / named parameter list: what `to_params_named` produces and
what a row looks like when read back with its column names. -/
abbrev NamedRow := List (String × Value)

/-- The error classes the persistence layer can surface
(rusqlite / serde_rusqlite errors, abstracted). -/
inductive DbError where
  | noSuchTable
  | noSuchColumn
  | invalidParameterName
  | notNullViolation
  | uniqueViolation
  | tableExists
  | deserError
deriving DecidableEq

/-- A column of a stored table: its name and whether it was declared
NOT NULL in the creation clause. -/
structure Col where
  name : String
  notNull : Bool
deriving DecidableEq

/-- A table as stored by SQLite: ordered columns, optional primary-key
column, and the rows (one positional value per column). -/
structure StoredTable where
  cols : List Col
  pk : Option String
  rows : List (List Value)
deriving DecidableEq

/-- The database file: a finite association of table names to tables. -/
abbrev Db := List (String × StoredTable)

def lookupTable (name : String) (db : Db) : Option StoredTable :=
  (db.find? (fun p => p.1 == name)).map (·.2)

def updateTable (name : String) (t : StoredTable) (db : Db) : Db :=
  db.map (fun p => if p.1 == name then (p.1, t) else p)

def eraseTable (name : String) (db : Db) : Db :=
  db.filter (fun p => ¬ p.1 == name)

def colNames (t : StoredTable) : List String :=
  t.cols.map (·.name)

/-- Binding of one named parameter in a prepared statement: the value bound
to placeholder `:c`, NULL when the parameter was never bound. -/
def bindParam (params : NamedRow) (c : String) : Value :=
  ((params.find? (fun p => p.1 == c)).map (·.2)).getD Value.null

/-- The `Table` trait of gtfsdb.rs: `table_name()` and `column_names()`. -/
structure TableSchema where
  table_name : String
  column_names : List String
deriving DecidableEq

/-- The SQL string built by `insert` in gtfsdb.rs:
format!("INSERT INTO {} ({}) VALUES ({})", ..) with comma-joined column
names and `:name` placeholders. -/
def insert_sql (schema : TableSchema) : String :=
  "INSERT INTO " ++ schema.table_name ++ " (" ++
    String.intercalate "," schema.column_names ++ ") VALUES (" ++
    String.intercalate "," (schema.column_names.map (fun x => ":" ++ x)) ++ ")"

/-- The row that executing the insert statement stores: each table column
listed in the statement receives its bound parameter (NULL when unbound),
each column not listed receives its default NULL. -/
def mkRow (stmtCols : List String) (params : NamedRow) (t : StoredTable) : List Value :=
  t.cols.map (fun c => if stmtCols.contains c.name then bindParam params c.name else Value.null)

/-- Uniqueness check of the primary-key column, against the rows already in
the table (the uncommitted transaction state included). -/
def violatesUnique (t : StoredTable) (row : List Value) : Bool :=
  match t.pk with
  | none => false
  | some pkName =>
    let i := (colNames t).findIdx (fun c => c == pkName)
    t.rows.any (fun r => r.getD i Value.null == row.getD i Value.null)

/-- NOT NULL constraint check on a candidate row. -/
def violatesNotNull (t : StoredTable) (row : List Value) : Bool :=
  (t.cols.zip row).any (fun cv => cv.1.notNull && (cv.2 == Value.null))

/-- `tx.execute_named(sql, params)` for the insert statement built from
`schema`: prepare fails when the table or a listed column is missing;
binding fails with InvalidParameterName when a supplied parameter matches
no `:placeholder` of the statement (rusqlite `bind_parameters_named`); an
unbound placeholder stays NULL (SQLite); stepping enforces NOT NULL and
primary-key uniqueness; on success the row is appended. -/
def execute_named (schema : TableSchema) (params : NamedRow) (db : Db) : Except DbError Db :=
  match lookupTable schema.table_name db with
  | none => Except.error DbError.noSuchTable
  | some t =>
    if !(schema.column_names.all (fun c => (colNames t).contains c)) then
      Except.error DbError.noSuchColumn
    else if !(params.all (fun p => schema.column_names.contains p.1)) then
      Except.error DbError.invalidParameterName
    else
      let row := mkRow schema.column_names params t
      if violatesNotNull t row then Except.error DbError.notNullViolation
      else if violatesUnique t row then Except.error DbError.uniqueViolation
      else Except.ok (updateTable schema.table_name
        { cols := t.cols, pk := t.pk, rows := t.rows ++ [row] } db)

/-- Operations issued against the connection, in order. -/
inductive DbOp where
  | begin
  | execNamed (sql : String) (params : NamedRow)
  | commit
  | rollback
deriving DecidableEq

/-- How a call to the generic `insert` terminates: normally, with an error
result, or by panicking (`unwrap` on a failed serialization). -/
inductive Outcome where
  | ok
  | err (e : DbError)
  | panicked
deriving DecidableEq

/-- Result of running `insert`: termination mode, resulting database state
(the snapshot state when the transaction was rolled back), and the trace of
connection operations. -/
structure RunResult where
  outcome : Outcome
  db : Db
  trace : List DbOp
deriving DecidableEq

/-- The record loop of `insert` in gtfsdb.rs. `snapshot` is the state at
`conn.transaction()`: an error return (`?`) or a panic drops the
transaction, which rolls back to it. -/
def insertLoop {T : Type} (schema : TableSchema) (ser : T → Option NamedRow)
    (sql : String) (snapshot : Db) :
    List T → Db → List DbOp → RunResult
  | [], cur, tr => ⟨Outcome.ok, cur, tr ++ [DbOp.commit]⟩
  | r :: rs, cur, tr =>
    match ser r with
    | none => ⟨Outcome.panicked, snapshot, tr ++ [DbOp.rollback]⟩
    | some ps =>
      match execute_named schema ps cur with
      | Except.error e =>
        ⟨Outcome.err e, snapshot, tr ++ [DbOp.execNamed sql ps, DbOp.rollback]⟩
      | Except.ok cur2 =>
        insertLoop schema ser sql snapshot rs cur2 (tr ++ [DbOp.execNamed sql ps])

/-- `pub fn insert<T>(conn, records)` of gtfsdb.rs: open one transaction,
build the named-placeholder SQL once, execute it once per record with
`to_params_named(&record).unwrap()` (modelled by `ser`), commit at the
end. -/
def insert {T : Type} (schema : TableSchema) (ser : T → Option NamedRow)
    (records : List T) (db : Db) : RunResult :=
  insertLoop schema ser (insert_sql schema) db records db [DbOp.begin]

/-- Pure sequential execution of a batch, `some` final state iff every
record serializes and executes without error. -/
def execOk {T : Type} (schema : TableSchema) (ser : T → Option NamedRow) :
    List T → Db → Option Db
  | [], db => some db
  | r :: rs, db =>
    match ser r with
    | none => none
    | some ps =>
      match execute_named schema ps db with
      | Except.error _ => none
      | Except.ok db2 => execOk schema ser rs db2

/-- One row of `from_rows::<T>`: deserialize the row (paired with its
column names) into `T`; a failure is a deserialization error. -/
def rowToRecord {T : Type} (deser : NamedRow → Option T)
    (names : List String) (row : List Value) : Except DbError T :=
  match deser (names.zip row) with
  | some v => Except.ok v
  | none => Except.error DbError.deserError

/-- `collect()` over the row iterator: the whole list on success, the first
failure otherwise. -/
def collectRows {T : Type} (step : List Value → Except DbError T) :
    List (List Value) → Except DbError (List T)
  | [] => Except.ok []
  | r :: rs =>
    match step r with
    | Except.error e => Except.error e
    | Except.ok v =>
      match collectRows step rs with
      | Except.error e => Except.error e
      | Except.ok vs => Except.ok (v :: vs)

/-- `fn select_all<T>(conn)` of gtfsdb.rs: prepare `SELECT * FROM <table>`,
stream the rows, deserialize each into `T`, collect with first-error
semantics. -/
def select_all {T : Type} (schema : TableSchema) (deser : NamedRow → Option T)
    (db : Db) : Except DbError (List T) :=
  match lookupTable schema.table_name db with
  | none => Except.error DbError.noSuchTable
  | some t => collectRows (rowToRecord deser (colNames t)) t.rows

/-- `DROP TABLE [IF EXISTS] <name>`: with `ifExists` set (as gtfsdb.rs
always does) an absent table is not an error. -/
def execDrop (name : String) (ifExists : Bool) (db : Db) : Except DbError Db :=
  match lookupTable name db with
  | some _ => Except.ok (eraseTable name db)
  | none => if ifExists then Except.ok db else Except.error DbError.noSuchTable

/-- `CREATE TABLE [IF NOT EXISTS] <name> (...)`: with `ifNotExists` set an
existing table is left untouched and is not an error. -/
def execCreate (name : String) (cols : List Col) (pk : Option String)
    (ifNotExists : Bool) (db : Db) : Except DbError Db :=
  match lookupTable name db with
  | some _ => if ifNotExists then Except.ok db else Except.error DbError.tableExists
  | none => Except.ok (db ++ [(name, { cols := cols, pk := pk, rows := [] })])

/-- `pub fn drop<T>(conn)` of gtfsdb.rs: `DROP TABLE IF EXISTS <table_name>`. -/
def drop (name : String) (db : Db) : Except DbError Db :=
  execDrop name true db

/-- serde serialization of an `Option<String>` field into a SQL value. -/
def Value.ofOption : Option String → Value
  | none => Value.null
  | some s => Value.text s

/-- serde_repr serialization of an optional integer-coded enum field. -/
def optValue {α : Type} (f : α → Value) : Option α → Value
  | none => Value.null
  | some x => f x

/-- Agency record of gtfs/agency.rs (Url, Timezone, Lang, TelephoneNumber
and MailAddress are String aliases). -/
structure Agency where
  agency_id : String
  agency_name : String
  agency_url : String
  agency_timezone : String
  agency_lang : String
  agency_phone : Option String
  agency_fare_url : Option String
  agency_email : Option String
deriving DecidableEq

def Agency.table_name : String := "agency"

def Agency.column_names : List String :=
  ["agency_id", "agency_name", "agency_url", "agency_timezone",
   "agency_lang", "agency_phone", "agency_fare_url", "agency_email"]

def agencySchema : TableSchema :=
  { table_name := Agency.table_name, column_names := Agency.column_names }

/-- `to_params_named(&agency)`: serde serializes the struct fields in
declaration order, keyed by field name. -/
def Agency.to_params_named (a : Agency) : NamedRow :=
  [("agency_id", Value.text a.agency_id),
   ("agency_name", Value.text a.agency_name),
   ("agency_url", Value.text a.agency_url),
   ("agency_timezone", Value.text a.agency_timezone),
   ("agency_lang", Value.text a.agency_lang),
   ("agency_phone", Value.ofOption a.agency_phone),
   ("agency_fare_url", Value.ofOption a.agency_fare_url),
   ("agency_email", Value.ofOption a.agency_email)]

def getColumn (row : NamedRow) (c : String) : Option Value :=
  (row.find? (fun p => p.1 == c)).map (·.2)

/-- Deserializing a required String field: demands a TEXT value. -/
def getText (row : NamedRow) (c : String) : Option String :=
  match getColumn row c with
  | some (Value.text s) => some s
  | _ => none

/-- Deserializing an `Option<String>` field: NULL is `None`, TEXT is
`Some`; a missing column or an integer is an error. -/
def getOptText (row : NamedRow) (c : String) : Option (Option String) :=
  match getColumn row c with
  | some (Value.text s) => some (some s)
  | some Value.null => some none
  | _ => none

/-- Row-to-record deserialization of an Agency (serde Deserialize by
column name). -/
def Agency.from_row (row : NamedRow) : Option Agency := do
  let agency_id ← getText row "agency_id"
  let agency_name ← getText row "agency_name"
  let agency_url ← getText row "agency_url"
  let agency_timezone ← getText row "agency_timezone"
  let agency_lang ← getText row "agency_lang"
  let agency_phone ← getOptText row "agency_phone"
  let agency_fare_url ← getOptText row "agency_fare_url"
  let agency_email ← getOptText row "agency_email"
  some ⟨agency_id, agency_name, agency_url, agency_timezone, agency_lang,
        agency_phone, agency_fare_url, agency_email⟩

/-- The agency table as created by `gtfs::agency::create` in src
(agency_id text primary key, five NOT NULL text columns, three nullable). -/
def agencyCols : List Col :=
  [⟨"agency_id", false⟩, ⟨"agency_name", true⟩, ⟨"agency_url", true⟩,
   ⟨"agency_timezone", true⟩, ⟨"agency_lang", true⟩, ⟨"agency_phone", false⟩,
   ⟨"agency_fare_url", false⟩, ⟨"agency_email", false⟩]

/-- `gtfs::agency::create`: CREATE TABLE IF NOT EXISTS agency (...). -/
def Agency.create (db : Db) : Except DbError Db :=
  execCreate "agency" agencyCols (some "agency_id") true db

/-- Direction enum of trips.rs, serde_repr(u8). -/
inductive Direction where
  | Outbound
  | Inbound
deriving DecidableEq

def Direction.toValue : Direction → Value
  | Direction.Outbound => Value.int 0
  | Direction.Inbound => Value.int 1

/-- WheelchairAccessible enum of trips.rs, serde_repr(u8). -/
inductive WheelchairAccessible where
  | Unknown
  | Allow
  | Deny
deriving DecidableEq

def WheelchairAccessible.toValue : WheelchairAccessible → Value
  | WheelchairAccessible.Unknown => Value.int 0
  | WheelchairAccessible.Allow => Value.int 1
  | WheelchairAccessible.Deny => Value.int 2

/-- BikesAllowed enum of trips.rs, serde_repr(u8). -/
inductive BikesAllowed where
  | Unknown
  | Allow
  | Deny
deriving DecidableEq

def BikesAllowed.toValue : BikesAllowed → Value
  | BikesAllowed.Unknown => Value.int 0
  | BikesAllowed.Allow => Value.int 1
  | BikesAllowed.Deny => Value.int 2

/-- Trip record of gtfs/trips.rs (RouteId, ServiceId, TripId, JpOfficeId
are String aliases), 13 fields in declaration order. -/
structure Trip where
  route_id : String
  service_id : String
  trip_id : String
  trip_headsign : Option String
  trip_short_name : Option String
  direction_id : Option Direction
  block_id : Option String
  shape_id : Option String
  wheelchair_accessible : Option WheelchairAccessible
  bikes_allowed : Option BikesAllowed
  jp_trip_desc : Option String
  jp_trip_desc_symbol : Option String
  jp_office_id : Option String
deriving DecidableEq

def Trip.table_name : String := "trips"

def Trip.column_names : List String :=
  ["route_id", "service_id", "trip_id", "trip_headsign", "trip_short_name",
   "direction_id", "block_id", "shape_id", "wheelchair_accessible",
   "bikes_allowed", "jp_trip_desc", "jp_trip_desc_symbol", "jp_office_id"]

def tripSchema : TableSchema :=
  { table_name := Trip.table_name, column_names := Trip.column_names }

/-- `to_params_named(&trip)`: serde serializes the 13 struct fields in
declaration order, keyed by field name. -/
def Trip.to_params_named (t : Trip) : NamedRow :=
  [("route_id", Value.text t.route_id),
   ("service_id", Value.text t.service_id),
   ("trip_id", Value.text t.trip_id),
   ("trip_headsign", Value.ofOption t.trip_headsign),
   ("trip_short_name", Value.ofOption t.trip_short_name),
   ("direction_id", optValue Direction.toValue t.direction_id),
   ("block_id", Value.ofOption t.block_id),
   ("shape_id", Value.ofOption t.shape_id),
   ("wheelchair_accessible", optValue WheelchairAccessible.toValue t.wheelchair_accessible),
   ("bikes_allowed", optValue BikesAllowed.toValue t.bikes_allowed),
   ("jp_trip_desc", Value.ofOption t.jp_trip_desc),
   ("jp_trip_desc_symbol", Value.ofOption t.jp_trip_desc_symbol),
   ("jp_office_id", Value.ofOption t.jp_office_id)]

/-- Columns of the trips table, from `Trip::create_sql` in trips.rs:
route_id and service_id NOT NULL, trip_id primary key, the rest nullable. -/
def tripsCols : List Col :=
  [⟨"route_id", true⟩, ⟨"service_id", true⟩, ⟨"trip_id", false⟩,
   ⟨"trip_headsign", false⟩, ⟨"trip_short_name", false⟩,
   ⟨"direction_id", false⟩, ⟨"block_id", false⟩, ⟨"shape_id", false⟩,
   ⟨"wheelchair_accessible", false⟩, ⟨"bikes_allowed", false⟩,
   ⟨"jp_trip_desc", false⟩, ⟨"jp_trip_desc_symbol", false⟩,
   ⟨"jp_office_id", false⟩]

/-- Modelled from the spec: the create envelope for trips (the generic
`gtfs` create wrapper is not under src); spec 4.2 prescribes
create-if-absent per entity type. The column clause is from
`Trip::create_sql` in src. -/
def Trip.create (db : Db) : Except DbError Db :=
  execCreate "trips" tripsCols (some "trip_id") true db

/-- Modelled from the spec: the Stop entity module is not under src; spec
4.2 prescribes a create-if-absent per entity type, one relation per
entity. -/
def Stop.create (db : Db) : Except DbError Db :=
  execCreate "stops" [⟨"stop_id", false⟩] (some "stop_id") true db

/-- Modelled from the spec: the Route entity module is not under src; spec
4.2 prescribes a create-if-absent per entity type. -/
def Route.create (db : Db) : Except DbError Db :=
  execCreate "routes" [⟨"route_id", false⟩] (some "route_id") true db

/-- Modelled from the spec: the StopTime entity module is not under src;
spec 4.2 prescribes a create-if-absent per entity type. -/
def StopTime.create (db : Db) : Except DbError Db :=
  execCreate "stop_times" [⟨"trip_id", false⟩] none true db

/-- `drop_all` of gtfsdb.rs: drop Agency, Route, StopTime, Stop, Trip in
that order, each via `DROP TABLE IF EXISTS` (the `routes`, `stop_times`
and `stops` table names are modelled from the spec, their entity modules
being outside src). -/
def drop_all (db : Db) : Except DbError Db := do
  let db1 ← drop "agency" db
  let db2 ← drop "routes" db1
  let db3 ← drop "stop_times" db2
  let db4 ← drop "stops" db3
  drop "trips" db4

/-- `create_all` of gtfsdb.rs: create agency, stops, routes, trips,
stop_times in that order. -/
def create_all (db : Db) : Except DbError Db := do
  let db1 ← Agency.create db
  let db2 ← Stop.create db1
  let db3 ← Route.create db2
  let db4 ← Trip.create db3
  StopTime.create db4

/-- A filesystem path (`PathBuf`): `to_str` yields the path as a string
exactly when the OS path is valid UTF-8. -/
structure PathBuf where
  to_str : Option String
deriving DecidableEq

/-- The session handle of gtfsdb.rs. -/
structure GtfsDb where
  connection : Db
deriving DecidableEq

/-- How `GtfsDb::new` terminates: a handle, a connection error, or a panic. -/
inductive NewResult where
  | ok (g : GtfsDb)
  | err (e : DbError)
  | panicked
deriving DecidableEq

/-- `GtfsDb::new(db)`: `db.to_str().unwrap()` (panics on a non-UTF-8
path), then `Connection::open` (modelled by `openConn`), propagating its
error with `?`. -/
def GtfsDb.new (openConn : String → Except DbError Db) (db : PathBuf) : NewResult :=
  match db.to_str with
  | none => NewResult.panicked
  | some s =>
    match openConn s with
    | Except.ok conn => NewResult.ok ⟨conn⟩
    | Except.error e => NewResult.err e

/-- Number of statement executions in a trace. -/
def countExec : List DbOp → Nat
  | [] => 0
  | DbOp.execNamed _ _ :: tr => countExec tr + 1
  | _ :: tr => countExec tr

/-- Number of transaction opens in a trace. -/
def countBegin : List DbOp → Nat
  | [] => 0
  | DbOp.begin :: tr => countBegin tr + 1
  | _ :: tr => countBegin tr

/-- Number of commits in a trace. -/
def countCommit : List DbOp → Nat
  | [] => 0
  | DbOp.commit :: tr => countCommit tr + 1
  | _ :: tr => countCommit tr

theorem countExec_append (l1 l2 : List DbOp) :
    countExec (l1 ++ l2) = countExec l1 + countExec l2 := by
  induction l1 with
  | nil => simp [countExec]
  | cons op tl ih =>
    cases op with
    | execNamed s p =>
      show countExec (tl ++ l2) + 1 = countExec tl + 1 + countExec l2
      rw [ih]
      omega
    | begin =>
      show countExec (tl ++ l2) = countExec tl + countExec l2
      exact ih
    | commit =>
      show countExec (tl ++ l2) = countExec tl + countExec l2
      exact ih
    | rollback =>
      show countExec (tl ++ l2) = countExec tl + countExec l2
      exact ih

theorem insertLoop_ok_trace {T : Type} (schema : TableSchema)
    (ser : T → Option NamedRow) (sql : String) (snap : Db) :
    ∀ (records : List T) (cur : Db) (tr : List DbOp) (d : Db) (tr2 : List DbOp),
      insertLoop schema ser sql snap records cur tr = ⟨Outcome.ok, d, tr2⟩ →
      tr2 = tr ++ records.map (fun r => DbOp.execNamed sql ((ser r).getD [])) ++ [DbOp.commit] := by
  intro records
  induction records with
  | nil =>
    intro cur tr d tr2 h
    simp only [insertLoop, RunResult.mk.injEq] at h
    simp [← h.2.2]
  | cons r rs ih =>
    intro cur tr d tr2 h
    simp only [insertLoop] at h
    cases hs : ser r with
    | none => simp [hs] at h
    | some ps =>
      cases he : execute_named schema ps cur with
      | error e => simp [hs, he] at h
      | ok cur2 =>
        simp only [hs, he] at h
        have := ih cur2 (tr ++ [DbOp.execNamed sql ps]) d tr2 h
        simp [this, hs]

theorem insertLoop_ok_execOk {T : Type} (schema : TableSchema)
    (ser : T → Option NamedRow) (sql : String) (snap : Db) :
    ∀ (records : List T) (cur : Db) (tr : List DbOp) (d : Db) (tr2 : List DbOp),
      insertLoop schema ser sql snap records cur tr = ⟨Outcome.ok, d, tr2⟩ →
      execOk schema ser records cur = some d := by
  intro records
  induction records with
  | nil =>
    intro cur tr d tr2 h
    simp only [insertLoop, RunResult.mk.injEq] at h
    simp [execOk, h.2.1]
  | cons r rs ih =>
    intro cur tr d tr2 h
    simp only [insertLoop] at h
    cases hs : ser r with
    | none => simp [hs] at h
    | some ps =>
      cases he : execute_named schema ps cur with
      | error e => simp [hs, he] at h
      | ok cur2 =>
        simp only [hs, he] at h
        simp only [execOk, hs, he]
        exact ih cur2 _ d tr2 h

theorem insertLoop_err {T : Type} (schema : TableSchema)
    (ser : T → Option NamedRow) (sql : String) (snap : Db) :
    ∀ (records : List T) (cur : Db) (tr : List DbOp) (e : DbError) (d : Db) (tr2 : List DbOp),
      insertLoop schema ser sql snap records cur tr = ⟨Outcome.err e, d, tr2⟩ →
      d = snap ∧ (∃ tr0, tr2 = tr0 ++ [DbOp.rollback]) ∧
      ∃ pre rec post mid ps, records = pre ++ rec :: post ∧
        execOk schema ser pre cur = some mid ∧ ser rec = some ps ∧
        execute_named schema ps mid = Except.error e := by
  intro records
  induction records with
  | nil =>
    intro cur tr e d tr2 h
    simp [insertLoop] at h
  | cons r rs ih =>
    intro cur tr e d tr2 h
    simp only [insertLoop] at h
    cases hs : ser r with
    | none => simp [hs] at h
    | some ps =>
      cases he : execute_named schema ps cur with
      | error e2 =>
        simp only [hs, he, RunResult.mk.injEq, Outcome.err.injEq] at h
        obtain ⟨he2, hd, htr⟩ := h
        subst he2
        refine ⟨hd.symm, ⟨tr ++ [DbOp.execNamed sql ps], by simp [← htr]⟩,
          [], r, rs, cur, ps, rfl, rfl, hs, he⟩
      | ok cur2 =>
        simp only [hs, he] at h
        obtain ⟨hd, htr2, pre, rec, post, mid, ps2, hrec, hpre, hser, hexec⟩ :=
          ih cur2 _ e d tr2 h
        refine ⟨hd, htr2, r :: pre, rec, post, mid, ps2, by simp [hrec], ?_, hser, hexec⟩
        simp [execOk, hs, he, hpre]

theorem insertLoop_no_panic {T : Type} (schema : TableSchema)
    (ser : T → Option NamedRow) (sql : String) (snap : Db) :
    ∀ (records : List T) (cur : Db) (tr : List DbOp),
      (∀ r ∈ records, (ser r).isSome = true) →
      (insertLoop schema ser sql snap records cur tr).outcome ≠ Outcome.panicked := by
  intro records
  induction records with
  | nil => intro cur tr _; simp [insertLoop]
  | cons r rs ih =>
    intro cur tr hall
    have hr : (ser r).isSome = true := hall r (by simp)
    cases hs : ser r with
    | none => rw [hs] at hr; simp at hr
    | some ps =>
      simp only [insertLoop, hs]
      cases he : execute_named schema ps cur with
      | error e => simp
      | ok cur2 => exact ih cur2 _ (fun x hx => hall x (by simp [hx]))

theorem insertLoop_exec_count {T : Type} (schema : TableSchema)
    (ser : T → Option NamedRow) (sql : String) (snap : Db) :
    ∀ (records : List T) (cur : Db) (tr : List DbOp),
      countExec (insertLoop schema ser sql snap records cur tr).trace ≤
        countExec tr + records.length := by
  intro records
  induction records with
  | nil => intro cur tr; simp [insertLoop, countExec_append, countExec]
  | cons r rs ih =>
    intro cur tr
    simp only [insertLoop]
    cases hs : ser r with
    | none => simp [countExec_append, countExec]
    | some ps =>
      simp only []
      cases he : execute_named schema ps cur with
      | error e =>
        simp only [he, countExec_append, countExec, List.length_cons]
        omega
      | ok cur2 =>
        simp only [he]
        have := ih cur2 (tr ++ [DbOp.execNamed sql ps])
        simp only [countExec_append, countExec, List.length_cons] at this ⊢
        omega

/-- C1: if any record's insert statement fails, the whole transaction is
rolled back, the database is exactly as before the call, and the surfaced
error is the failure of the first record that fails (all records before it
having executed successfully); if the batch succeeds, the final state is
the full sequential application of every record. -/
theorem c1_insert_atomic {T : Type} (schema : TableSchema)
    (ser : T → Option NamedRow) (records : List T) (db : Db) :
    (∀ e, (insert schema ser records db).outcome = Outcome.err e →
      (insert schema ser records db).db = db ∧
      (∃ tr0, (insert schema ser records db).trace = tr0 ++ [DbOp.rollback]) ∧
      ∃ pre rec post mid ps, records = pre ++ rec :: post ∧
        execOk schema ser pre db = some mid ∧ ser rec = some ps ∧
        execute_named schema ps mid = Except.error e) ∧
    ((insert schema ser records db).outcome = Outcome.ok →
      execOk schema ser records db = some ((insert schema ser records db).db)) := by
  constructor
  · intro e he
    rcases hrun : insert schema ser records db with ⟨o, d, tr⟩
    rw [hrun] at he
    simp only at he
    subst he
    have hloop : insertLoop schema ser (insert_sql schema) db records db [DbOp.begin] =
        ⟨Outcome.err e, d, tr⟩ := hrun
    obtain ⟨hd, htr, hdecomp⟩ :=
      insertLoop_err schema ser _ db records db [DbOp.begin] e d tr hloop
    exact ⟨hd, htr, hdecomp⟩
  · intro ho
    rcases hrun : insert schema ser records db with ⟨o, d, tr⟩
    rw [hrun] at ho
    simp only at ho
    subst ho
    have hloop : insertLoop schema ser (insert_sql schema) db records db [DbOp.begin] =
        ⟨Outcome.ok, d, tr⟩ := hrun
    exact insertLoop_ok_execOk schema ser _ db records db [DbOp.begin] d tr hloop

/-- The per-record statement executions a batch produces: one
`execute_named` of the insert SQL per record, in batch order. -/
def execsOf {T : Type} (schema : TableSchema) (ser : T → Option NamedRow)
    (records : List T) : List DbOp :=
  records.map (fun r => DbOp.execNamed (insert_sql schema) ((ser r).getD []))

theorem countBegin_execsOf {T : Type} (schema : TableSchema)
    (ser : T → Option NamedRow) (records : List T) (rest : List DbOp) :
    countBegin (execsOf schema ser records ++ rest) = countBegin rest := by
  induction records with
  | nil => rfl
  | cons r rs ih => exact ih

theorem countCommit_execsOf {T : Type} (schema : TableSchema)
    (ser : T → Option NamedRow) (records : List T) (rest : List DbOp) :
    countCommit (execsOf schema ser records ++ rest) = countCommit rest := by
  induction records with
  | nil => rfl
  | cons r rs ih => exact ih

theorem countExec_execsOf {T : Type} (schema : TableSchema)
    (ser : T → Option NamedRow) (records : List T) (rest : List DbOp) :
    countExec (execsOf schema ser records ++ rest) = records.length + countExec rest := by
  induction records with
  | nil => simp [execsOf, countExec]
  | cons r rs ih =>
    show countExec (execsOf schema ser rs ++ rest) + 1 = rs.length + 1 + countExec rest
    rw [ih]
    omega

/-- C2: a successful batch insert opens exactly one transaction, executes
exactly one named-placeholder parameterized insert statement (the SQL built
by `insert_sql`) per record, in batch order, and commits exactly once at
the very end. -/
theorem c2_insert_one_transaction {T : Type} (schema : TableSchema)
    (ser : T → Option NamedRow) (records : List T) (db : Db) :
    (insert schema ser records db).outcome = Outcome.ok →
    (insert schema ser records db).trace =
      DbOp.begin :: (execsOf schema ser records ++ [DbOp.commit]) ∧
    countBegin (insert schema ser records db).trace = 1 ∧
    countCommit (insert schema ser records db).trace = 1 ∧
    countExec (insert schema ser records db).trace = records.length := by
  intro ho
  rcases hrun : insert schema ser records db with ⟨o, d, tr⟩
  rw [hrun] at ho
  simp only at ho
  subst ho
  have hloop : insertLoop schema ser (insert_sql schema) db records db [DbOp.begin] =
      ⟨Outcome.ok, d, tr⟩ := hrun
  have htr : tr = DbOp.begin :: (execsOf schema ser records ++ [DbOp.commit]) :=
    insertLoop_ok_trace schema ser _ db records db [DbOp.begin] d tr hloop
  refine ⟨htr, ?_, ?_, ?_⟩
  · show countBegin tr = 1
    rw [htr]
    show countBegin (execsOf schema ser records ++ [DbOp.commit]) + 1 = 1
    rw [countBegin_execsOf]
    rfl
  · show countCommit tr = 1
    rw [htr]
    show countCommit (execsOf schema ser records ++ [DbOp.commit]) = 1
    rw [countCommit_execsOf]
    rfl
  · show countExec tr = records.length
    rw [htr]
    show countExec (execsOf schema ser records ++ [DbOp.commit]) = records.length
    rw [countExec_execsOf]
    rfl

/-- C7: inserting an empty batch succeeds, opens and commits an (empty)
transaction, and leaves the database state unchanged. -/
theorem c7_insert_empty_batch {T : Type} (schema : TableSchema)
    (ser : T → Option NamedRow) (db : Db) :
    insert schema ser ([] : List T) db =
      ⟨Outcome.ok, db, [DbOp.begin, DbOp.commit]⟩ := rfl

/-- C9: for Agency and Trip, `column_names()` lists exactly the serialized
field names of the record type (so it has as many entries as the type has
serializable fields), in struct declaration order: 8 for Agency, 13 for
Trip; both lists are fixed constants. -/
theorem c9_column_names_match_fields (a : Agency) (t : Trip) :
    (Agency.to_params_named a).map Prod.fst = Agency.column_names ∧
    Agency.column_names.length = 8 ∧
    (Trip.to_params_named t).map Prod.fst = Trip.column_names ∧
    Trip.column_names.length = 13 :=
  ⟨rfl, rfl, rfl, rfl⟩

/-- C10: `GtfsDb::new` returns a handle when the path is valid UTF-8 and
the backing store opens, propagates the open error as an error result, but
panics (via `unwrap` on `to_str`) when the path is not valid UTF-8 instead
of returning a connection error. -/
theorem c10_new_panics_on_non_utf8_path (openConn : String → Except DbError Db)
    (p : PathBuf) :
    (p.to_str = none → GtfsDb.new openConn p = NewResult.panicked) ∧
    (∀ s conn, p.to_str = some s → openConn s = Except.ok conn →
      GtfsDb.new openConn p = NewResult.ok ⟨conn⟩) ∧
    (∀ s e, p.to_str = some s → openConn s = Except.error e →
      GtfsDb.new openConn p = NewResult.err e) := by
  refine ⟨fun h => ?_, fun s conn h1 h2 => ?_, fun s e h1 h2 => ?_⟩
  · simp [GtfsDb.new, h]
  · simp [GtfsDb.new, h1, h2]
  · simp [GtfsDb.new, h1, h2]

/-- C4 (amended): for batches whose records all serialize, every failure of
the generic insert is surfaced as an error result (the call never panics),
and no statement is executed more than once per record (no internal retry).
The unamended claim fails: a record whose serialization fails makes
`to_params_named(..).unwrap()` panic instead of returning an error. -/
theorem c4_amended_failures_surface_as_errors {T : Type} (schema : TableSchema)
    (ser : T → Option NamedRow) (records : List T) (db : Db) :
    ((∀ r ∈ records, (ser r).isSome = true) →
      (insert schema ser records db).outcome ≠ Outcome.panicked) ∧
    countExec (insert schema ser records db).trace ≤ records.length := by
  constructor
  · intro hall
    exact insertLoop_no_panic schema ser (insert_sql schema) db records db [DbOp.begin] hall
  · have h := insertLoop_exec_count schema ser (insert_sql schema) db records db [DbOp.begin]
    simpa [countExec] using h

/-- C4 counterexample: a record whose `to_params_named` serialization fails
terminates the insert by a panic (`unwrap`), not through the error-result
channel — so not every failure path of the persistence layer surfaces as
an error result. -/
theorem c4_counterexample_serialization_panics :
    (insert ⟨"t", ["a"]⟩ (fun _ : Unit => (none : Option NamedRow)) [()]
      ([] : Db)).outcome = Outcome.panicked := rfl

theorem collectRows_ok_deser {T : Type} (deser : NamedRow → Option T)
    (ns : List String) :
    ∀ (rows : List (List Value)) (l : List T),
      collectRows (rowToRecord deser ns) rows = Except.ok l →
      rows.map (fun row => deser (ns.zip row)) = l.map some := by
  intro rows
  induction rows with
  | nil =>
    intro l h
    simp only [collectRows] at h
    injection h with h1
    subst h1
    rfl
  | cons row rest ih =>
    intro l h
    simp only [collectRows, rowToRecord] at h
    cases hd : deser (ns.zip row) with
    | none => rw [hd] at h; simp at h
    | some v =>
      rw [hd] at h
      cases hr : collectRows (rowToRecord deser ns) rest with
      | error e => rw [hr] at h; simp at h
      | ok vs =>
        rw [hr] at h
        simp only [Except.ok.injEq] at h
        subst h
        simp [hd, ih vs hr]

theorem collectRows_err_of_fail {T : Type} (deser : NamedRow → Option T)
    (ns : List String) :
    ∀ rows, (∃ row ∈ rows, deser (ns.zip row) = none) →
      collectRows (rowToRecord deser ns) rows = Except.error DbError.deserError := by
  intro rows
  induction rows with
  | nil => intro h; simp at h
  | cons row rest ih =>
    intro h
    simp only [collectRows, rowToRecord]
    cases hd : deser (ns.zip row) with
    | none => rfl
    | some v =>
      obtain ⟨r0, hr0, hfail⟩ := h
      rcases List.mem_cons.mp hr0 with heq | hmem
      · subst heq; rw [hfail] at hd; cases hd
      · rw [ih ⟨r0, hmem, hfail⟩]

/-- C6: `select_all` deserializes every row of the table; when a result
list is returned it covers every row (never a partial result), and when any
single row fails to deserialize the whole read returns an error. -/
theorem c6_select_all_whole_read_or_error {T : Type} (schema : TableSchema)
    (deser : NamedRow → Option T) (db : Db) (t : StoredTable)
    (ht : lookupTable schema.table_name db = some t) :
    (∀ l, select_all schema deser db = Except.ok l →
      t.rows.map (fun row => deser ((colNames t).zip row)) = l.map some) ∧
    ((∃ row ∈ t.rows, deser ((colNames t).zip row) = none) →
      select_all schema deser db = Except.error DbError.deserError) := by
  constructor
  · intro l h
    simp only [select_all, ht] at h
    exact collectRows_ok_deser deser (colNames t) t.rows l h
  · intro hex
    simp only [select_all, ht]
    exact collectRows_err_of_fail deser (colNames t) t.rows hex

/-- C8 (amended): when a record serializes to a field set containing a name
that is not among `column_names()` (so the statement has no such
placeholder), the generic insert fails at insert time with the
parameter-binding error InvalidParameterName, returned to the caller, and
the table is unchanged. (The unamended claim fails in the other direction
of mismatch: extra columns without a matching field are simply bound NULL.) -/
theorem c8_amended_binding_error_at_insert_time {T : Type} (schema : TableSchema)
    (ser : T → Option NamedRow) (r0 : T) (rest : List T) (db : Db)
    (t : StoredTable) (ps : NamedRow)
    (ht : lookupTable schema.table_name db = some t)
    (hcols : (schema.column_names.all (fun c => (colNames t).contains c)) = true)
    (hser : ser r0 = some ps)
    (hbad : (ps.all (fun p => schema.column_names.contains p.1)) = false) :
    (insert schema ser (r0 :: rest) db).outcome = Outcome.err DbError.invalidParameterName ∧
    (insert schema ser (r0 :: rest) db).db = db := by
  have hexec : execute_named schema ps db = Except.error DbError.invalidParameterName := by
    unfold execute_named
    rw [ht]
    dsimp only
    rw [hcols, hbad]
    simp
  constructor <;> simp [insert, insertLoop, hser, hexec]

/-- C8 counterexample: an entity type whose `column_names()` (here
["a", "b"]) does not match its serialized field set (here just "a")
inserts successfully — no parameter-binding error — because the unmatched
placeholder is bound NULL. -/
theorem c8_counterexample_superset_columns_ok :
    (insert ⟨"tab", ["a", "b"]⟩ (fun r : NamedRow => some r)
      [[("a", Value.int 1)]]
      [("tab", ⟨[⟨"a", false⟩, ⟨"b", false⟩], none, []⟩)]).outcome = Outcome.ok := by
  decide

theorem bind_okE {α β : Type} {x : Except DbError α} {f : α → Except DbError β}
    (hx : ∃ a, x = Except.ok a) (hf : ∀ a, ∃ b, f a = Except.ok b) :
    ∃ b, (x >>= f) = Except.ok b := by
  obtain ⟨a, ha⟩ := hx
  obtain ⟨b, hb⟩ := hf a
  exact ⟨b, by rw [ha]; exact hb⟩

theorem drop_okE (name : String) (db : Db) : ∃ d, drop name db = Except.ok d := by
  unfold drop execDrop
  cases lookupTable name db <;> simp

theorem create_okE (name : String) (cols : List Col) (pk : Option String) (db : Db) :
    ∃ d, execCreate name cols pk true db = Except.ok d := by
  unfold execCreate
  cases lookupTable name db <;> simp

theorem drop_all_okE (db : Db) : ∃ d, drop_all db = Except.ok d :=
  bind_okE (drop_okE "agency" db) (fun a =>
    bind_okE (drop_okE "routes" a) (fun b =>
      bind_okE (drop_okE "stop_times" b) (fun c =>
        bind_okE (drop_okE "stops" c) (fun d => drop_okE "trips" d))))

theorem create_all_okE (db : Db) : ∃ d, create_all db = Except.ok d :=
  bind_okE (create_okE "agency" agencyCols (some "agency_id") db) (fun a =>
    bind_okE (create_okE "stops" [⟨"stop_id", false⟩] (some "stop_id") a) (fun b =>
      bind_okE (create_okE "routes" [⟨"route_id", false⟩] (some "route_id") b) (fun c =>
        bind_okE (create_okE "trips" tripsCols (some "trip_id") c) (fun d =>
          create_okE "stop_times" [⟨"trip_id", false⟩] none d))))

/-- C5: `drop` issues DROP TABLE IF EXISTS and succeeds (leaving the state
unchanged) even when the table is absent; the per-entity creates issue
CREATE TABLE IF NOT EXISTS and succeed (leaving the state unchanged) when
the table already exists; and the sequence drop_all(); create_all() run
twice in succession succeeds without error from any starting state. -/
theorem c5_lifecycle_idempotent :
    (∀ (db : Db) (name : String), lookupTable name db = none →
      execDrop name true db = Except.ok db) ∧
    (∀ (db : Db) (name : String) (cols : List Col) (pk : Option String)
      (t : StoredTable), lookupTable name db = some t →
      execCreate name cols pk true db = Except.ok db) ∧
    (∀ db : Db, ∃ d1 d2 d3 d4,
      drop_all db = Except.ok d1 ∧ create_all d1 = Except.ok d2 ∧
      drop_all d2 = Except.ok d3 ∧ create_all d3 = Except.ok d4) := by
  refine ⟨?_, ?_, ?_⟩
  · intro db name h
    unfold execDrop
    rw [h]
    rfl
  · intro db name cols pk t h
    unfold execCreate
    rw [h]
    rfl
  · intro db
    obtain ⟨d1, h1⟩ := drop_all_okE db
    obtain ⟨d2, h2⟩ := create_all_okE d1
    obtain ⟨d3, h3⟩ := drop_all_okE d2
    obtain ⟨d4, h4⟩ := create_all_okE d3
    exact ⟨d1, d2, d3, d4, h1, h2, h3, h4⟩

theorem bindParam_cols (ps : NamedRow) :
    ∀ (cs : List String), ps.map Prod.fst = cs → cs.Nodup →
      cs.map (fun c => bindParam ps c) = ps.map Prod.snd := by
  induction ps with
  | nil =>
    intro cs h _
    subst h
    rfl
  | cons p tl ih =>
    intro cs h hnd
    subst h
    have hsplit : p.1 ∉ (tl.map Prod.fst) ∧ (tl.map Prod.fst).Nodup := by
      simpa using hnd
    have hhead : bindParam (p :: tl) p.1 = p.2 := by
      unfold bindParam
      rw [List.find?_cons_of_pos tl (by simp)]
      rfl
    have htail : (tl.map Prod.fst).map (fun c => bindParam (p :: tl) c) =
        (tl.map Prod.fst).map (fun c => bindParam tl c) := by
      apply List.map_congr_left
      intro c hc
      have hne : ¬ p.1 = c := fun he => hsplit.1 (he ▸ hc)
      unfold bindParam
      rw [List.find?_cons_of_neg tl (by simp [hne])]
    simp only [List.map_cons, hhead, htail, ih (tl.map Prod.fst) rfl hsplit.2]

theorem mkRow_params (schema : TableSchema) (ps : NamedRow) (t : StoredTable)
    (hcols : colNames t = schema.column_names)
    (hnames : ps.map Prod.fst = schema.column_names)
    (hnd : schema.column_names.Nodup) :
    mkRow schema.column_names ps t = ps.map Prod.snd := by
  unfold mkRow
  have h1 : t.cols.map (fun c =>
      if schema.column_names.contains c.name then bindParam ps c.name else Value.null) =
      t.cols.map (fun c => bindParam ps c.name) := by
    apply List.map_congr_left
    intro c hc
    have hmem : c.name ∈ schema.column_names := by
      rw [← hcols]
      exact List.mem_map_of_mem _ hc
    rw [if_pos (List.elem_eq_true_of_mem hmem)]
  rw [h1]
  have h2 : t.cols.map (fun c => bindParam ps c.name) =
      (colNames t).map (fun c => bindParam ps c) := by
    unfold colNames
    rw [List.map_map]
    rfl
  rw [h2, hcols]
  exact bindParam_cols ps schema.column_names hnames hnd

theorem execute_ok_shape (schema : TableSchema) (ps : NamedRow) (db d : Db)
    (h : execute_named schema ps db = Except.ok d) :
    ∃ t, lookupTable schema.table_name db = some t ∧
      d = updateTable schema.table_name
        ⟨t.cols, t.pk, t.rows ++ [mkRow schema.column_names ps t]⟩ db := by
  unfold execute_named at h
  cases ht : lookupTable schema.table_name db with
  | none => rw [ht] at h; cases h
  | some t =>
    rw [ht] at h
    dsimp only at h
    refine ⟨t, rfl, ?_⟩
    split at h
    · cases h
    · split at h
      · cases h
      · split at h
        · cases h
        · split at h
          · cases h
          · injection h with h2
            exact h2.symm

theorem lookupTable_updateTable (name : String) (t2 : StoredTable) :
    ∀ (db : Db) (t : StoredTable), lookupTable name db = some t →
      lookupTable name (updateTable name t2 db) = some t2 := by
  intro db
  induction db with
  | nil => intro t h; simp [lookupTable] at h
  | cons p rest ih =>
    intro t h
    cases hpb : (p.1 == name) with
    | false =>
      have hne : ¬ p.1 = name := by simpa using hpb
      have hup : updateTable name t2 (p :: rest) = p :: updateTable name t2 rest := by
        simp [updateTable, hne]
      unfold lookupTable at h
      rw [List.find?_cons_of_neg rest (by simp [hpb])] at h
      rw [hup]
      unfold lookupTable
      rw [List.find?_cons_of_neg _ (by simp [hpb])]
      exact ih t h
    | true =>
      have he : p.1 = name := by simpa using hpb
      have hup : updateTable name t2 (p :: rest) = (p.1, t2) :: updateTable name t2 rest := by
        simp [updateTable, he]
      rw [hup]
      unfold lookupTable
      rw [List.find?_cons_of_pos _ (by simp [hpb])]
      rfl

theorem execOk_rows {T : Type} (schema : TableSchema) (ser : T → Option NamedRow)
    (hnd : schema.column_names.Nodup) :
    ∀ (recs : List T) (cur : Db) (t : StoredTable) (d : Db),
      lookupTable schema.table_name cur = some t →
      colNames t = schema.column_names →
      (∀ r ∈ recs, ∃ ps, ser r = some ps ∧ ps.map Prod.fst = schema.column_names) →
      execOk schema ser recs cur = some d →
      ∃ t2, lookupTable schema.table_name d = some t2 ∧
        t2.cols = t.cols ∧
        t2.rows = t.rows ++ recs.map (fun r => ((ser r).getD []).map Prod.snd) := by
  intro recs
  induction recs with
  | nil =>
    intro cur t d ht hcols _ h
    simp only [execOk, Option.some.injEq] at h
    subst h
    exact ⟨t, ht, rfl, by simp⟩
  | cons r rs ih =>
    intro cur t d ht hcols hgood h
    obtain ⟨ps, hser, hnames⟩ := hgood r (by simp)
    simp only [execOk, hser] at h
    cases he : execute_named schema ps cur with
    | error e => rw [he] at h; cases h
    | ok cur2 =>
      rw [he] at h
      obtain ⟨t0, ht0, hd⟩ := execute_ok_shape schema ps cur cur2 he
      rw [ht] at ht0
      injection ht0 with ht0e
      subst ht0e
      have ht2 : lookupTable schema.table_name cur2 =
          some ⟨t.cols, t.pk, t.rows ++ [mkRow schema.column_names ps t]⟩ := by
        rw [hd]
        exact lookupTable_updateTable schema.table_name _ cur t ht
      obtain ⟨t2, ht2f, hcols2, hrows⟩ :=
        ih cur2 ⟨t.cols, t.pk, t.rows ++ [mkRow schema.column_names ps t]⟩ d
          ht2 hcols (fun x hx => hgood x (by simp [hx])) h
      refine ⟨t2, ht2f, hcols2, ?_⟩
      rw [hrows, mkRow_params schema ps t hcols hnames hnd]
      simp [hser]

theorem zip_fst_snd (ps : NamedRow) :
    (ps.map Prod.fst).zip (ps.map Prod.snd) = ps := by
  induction ps with
  | nil => rfl
  | cons p tl ih => simp [ih]

theorem collectRows_roundtrip {T : Type} (deser : NamedRow → Option T)
    (ns : List String) (rowOf : T → List Value) :
    ∀ (recs : List T), (∀ r ∈ recs, deser (ns.zip (rowOf r)) = some r) →
      collectRows (rowToRecord deser ns) (recs.map rowOf) = Except.ok recs := by
  intro recs
  induction recs with
  | nil => intro _; rfl
  | cons r rs ih =>
    intro h
    have hr : deser (ns.zip (rowOf r)) = some r := h r (by simp)
    simp only [List.map_cons, collectRows, rowToRecord, hr]
    rw [ih (fun x hx => h x (by simp [hx]))]

/-- C3: starting from an empty table whose column layout matches the
schema contract, inserting a non-empty batch of valid records (each
serializing to exactly the declared columns and deserializing back to
itself) and then calling `select_all` returns exactly the inserted batch,
each retrieved record field-for-field equal to the original. -/
theorem c3_insert_select_all_roundtrip {T : Type} (schema : TableSchema)
    (ser : T → Option NamedRow) (deser : NamedRow → Option T)
    (records : List T) (db : Db) (t : StoredTable)
    (ht : lookupTable schema.table_name db = some t)
    (hempty : t.rows = [])
    (hcols : colNames t = schema.column_names)
    (hnd : schema.column_names.Nodup)
    (hgood : ∀ r ∈ records, ∃ ps, ser r = some ps ∧
      ps.map Prod.fst = schema.column_names ∧ deser ps = some r)
    (hne : records ≠ [])
    (hok : (insert schema ser records db).outcome = Outcome.ok) :
    select_all schema deser ((insert schema ser records db).db) =
      Except.ok records := by
  rcases hrun : insert schema ser records db with ⟨o, d, tr⟩
  rw [hrun] at hok
  simp only at hok
  subst hok
  have hloop : insertLoop schema ser (insert_sql schema) db records db [DbOp.begin] =
      ⟨Outcome.ok, d, tr⟩ := hrun
  have hexec : execOk schema ser records db = some d :=
    insertLoop_ok_execOk schema ser _ db records db [DbOp.begin] d tr hloop
  obtain ⟨t2, ht2, hcols2, hrows⟩ :=
    execOk_rows schema ser hnd records db t d ht hcols
      (fun r hr => (hgood r hr).imp (fun ps hps => ⟨hps.1, hps.2.1⟩)) hexec
  show select_all schema deser d = Except.ok records
  have hcn : colNames t2 = schema.column_names := by
    unfold colNames
    rw [hcols2]
    exact hcols
  simp only [select_all, ht2, hrows, hempty, List.nil_append, hcn]
  apply collectRows_roundtrip
  intro r hr
  obtain ⟨ps, hser, hnames, hdes⟩ := hgood r hr
  rw [hser]
  show deser (schema.column_names.zip (ps.map Prod.snd)) = some r
  rw [← hnames, zip_fst_snd]
  exact hdes

/-- The serialization used by the concrete agency inserts:
`to_params_named` never fails for Agency. -/
def agencySer (a : Agency) : Option NamedRow :=
  some (Agency.to_params_named a)

/-- The agency table as created by `gtfs::agency::create`, empty. -/
def agencyTable : StoredTable :=
  ⟨agencyCols, some "agency_id", []⟩

def db0 : Db := [("agency", agencyTable)]

def a1 : Agency := ⟨"A1", "n1", "u1", "tz", "ja", none, none, none⟩

def a2 : Agency := ⟨"A2", "n2", "u2", "tz", "ja", some "p", none, none⟩

/-- Witness for C1: a batch whose second record violates the agency
primary-key uniqueness constraint errors and leaves the database exactly
as before the call. -/
theorem c1_witness :
    (insert agencySchema agencySer [a1, a1] db0).outcome =
      Outcome.err DbError.uniqueViolation ∧
    (insert agencySchema agencySer [a1, a1] db0).db = db0 :=
  ⟨by decide,
   ((c1_insert_atomic agencySchema agencySer [a1, a1] db0).1
      DbError.uniqueViolation (by decide)).1⟩

/-- Witness for C2: a successful two-record batch produces the trace
begin, two executions of the named-placeholder insert statement, one
commit; and the statement has exactly the INSERT INTO .. VALUES form. -/
theorem c2_witness :
    (insert agencySchema agencySer [a1, a2] db0).outcome = Outcome.ok ∧
    (insert agencySchema agencySer [a1, a2] db0).trace =
      DbOp.begin :: (execsOf agencySchema agencySer [a1, a2] ++ [DbOp.commit]) ∧
    insert_sql agencySchema =
      "INSERT INTO agency (agency_id,agency_name,agency_url,agency_timezone,agency_lang,agency_phone,agency_fare_url,agency_email) VALUES (:agency_id,:agency_name,:agency_url,:agency_timezone,:agency_lang,:agency_phone,:agency_fare_url,:agency_email)" :=
  ⟨by decide,
   (c2_insert_one_transaction agencySchema agencySer [a1, a2] db0 (by decide)).1,
   by decide⟩

/-- Witness for C3: inserting two concrete agencies into the freshly
created agency table and selecting all returns exactly the two records. -/
theorem c3_witness :
    (insert agencySchema agencySer [a1, a2] db0).outcome = Outcome.ok ∧
    select_all agencySchema Agency.from_row
      ((insert agencySchema agencySer [a1, a2] db0).db) = Except.ok [a1, a2] :=
  ⟨by decide,
   c3_insert_select_all_roundtrip agencySchema agencySer Agency.from_row
     [a1, a2] db0 agencyTable (by decide) rfl (by decide) (by decide)
     (by
       intro r hr
       rcases List.mem_cons.mp hr with heq | hr2
       · subst heq
         exact ⟨Agency.to_params_named a1, rfl, by decide, by decide⟩
       rcases List.mem_cons.mp hr2 with heq | hr3
       · subst heq
         exact ⟨Agency.to_params_named a2, rfl, by decide, by decide⟩
       · exact absurd hr3 (by simp))
     (by decide) (by decide)⟩

/-- Witness for C4 (amended): for a batch whose records all serialize, the
insert does not panic. -/
theorem c4_witness :
    (∀ r ∈ [a1], (agencySer r).isSome = true) ∧
    (insert agencySchema agencySer [a1] db0).outcome ≠ Outcome.panicked :=
  ⟨by decide,
   (c4_amended_failures_surface_as_errors agencySchema agencySer [a1] db0).1
     (by decide)⟩

/-- Witness for C5: dropping an absent table succeeds and creating an
existing table succeeds, both leaving the state unchanged. -/
theorem c5_witness :
    lookupTable "agency" ([] : Db) = none ∧
    execDrop "agency" true ([] : Db) = Except.ok [] ∧
    lookupTable "agency" db0 = some agencyTable ∧
    execCreate "agency" agencyCols (some "agency_id") true db0 = Except.ok db0 :=
  ⟨by decide,
   c5_lifecycle_idempotent.1 [] "agency" (by decide),
   by decide,
   c5_lifecycle_idempotent.2.1 db0 "agency" agencyCols (some "agency_id")
     agencyTable (by decide)⟩

/-- An agency table holding one row whose NOT NULL agency_name is NULL:
deserializing that row fails. -/
def badAgencyTable : StoredTable :=
  ⟨agencyCols, some "agency_id",
   [[Value.text "A1", Value.null, Value.text "u", Value.text "tz",
     Value.text "ja", Value.null, Value.null, Value.null]]⟩

def dbBad : Db := [("agency", badAgencyTable)]

/-- Witness for C6: a table with one undeserializable row makes the whole
read fail with a deserialization error. -/
theorem c6_witness :
    (∃ row ∈ badAgencyTable.rows,
      Agency.from_row ((colNames badAgencyTable).zip row) = none) ∧
    select_all agencySchema Agency.from_row dbBad =
      Except.error DbError.deserError :=
  ⟨by decide,
   (c6_select_all_whole_read_or_error agencySchema Agency.from_row dbBad
      badAgencyTable (by decide)).2 (by decide)⟩

/-- Witness for C8 (amended): serializing to a field name ("x") that is not
among the declared columns (["a"]) yields InvalidParameterName at insert
time and leaves the database unchanged. -/
theorem c8_witness :
    (insert ⟨"tab", ["a"]⟩ (fun r : NamedRow => some r) [[("x", Value.int 1)]]
      [("tab", ⟨[⟨"a", false⟩], none, []⟩)]).outcome =
        Outcome.err DbError.invalidParameterName ∧
    (insert ⟨"tab", ["a"]⟩ (fun r : NamedRow => some r) [[("x", Value.int 1)]]
      [("tab", ⟨[⟨"a", false⟩], none, []⟩)]).db =
        [("tab", ⟨[⟨"a", false⟩], none, []⟩)] :=
  c8_amended_binding_error_at_insert_time ⟨"tab", ["a"]⟩
    (fun r : NamedRow => some r) [("x", Value.int 1)] []
    [("tab", ⟨[⟨"a", false⟩], none, []⟩)] ⟨[⟨"a", false⟩], none, []⟩
    [("x", Value.int 1)] (by decide) (by decide) rfl (by decide)

/-- Witness for C10: a UTF-8 path yields a handle or the open error, a
non-UTF-8 path panics. -/
theorem c10_witness :
    GtfsDb.new (fun _ => Except.ok []) ⟨some "hibou.db"⟩ = NewResult.ok ⟨[]⟩ ∧
    GtfsDb.new (fun _ => Except.error DbError.noSuchTable) ⟨some "hibou.db"⟩ =
      NewResult.err DbError.noSuchTable ∧
    GtfsDb.new (fun _ => Except.ok []) ⟨none⟩ = NewResult.panicked :=
  ⟨(c10_new_panics_on_non_utf8_path (fun _ => Except.ok []) ⟨some "hibou.db"⟩).2.1
     "hibou.db" [] rfl rfl,
   (c10_new_panics_on_non_utf8_path (fun _ => Except.error DbError.noSuchTable)
     ⟨some "hibou.db"⟩).2.2 "hibou.db" DbError.noSuchTable rfl rfl,
   (c10_new_panics_on_non_utf8_path (fun _ => Except.ok []) ⟨none⟩).1 rfl⟩

end Hibou
